import Mathlib

/-!
Verification of the weather-dashboard utility core against its source.

The embedding below translates, function by function, the deterministic
logic of the repository:

  - the color-rule engine of the sidebar component (getPolygonColor);
  - the weather client (fetchWeatherData) of src/lib/weather-api.ts,
    with the HTTP layer abstracted into an explicit outcome value and
    Math.random abstracted into an explicit seed in [0, 1);
  - the geometry utilities of src/lib/leaflet-utils.ts
    (calculatePolygonArea, isPointInPolygon, calculateBounds) and the
    centroid computation of the timeline component;
  - the timeline mutations of the WeatherTimeline component
    (moveTime, range expand and contract, handle drags, timeline click);
  - the persistence layer of src/lib/storage.ts over a small JSON value
    type (JSON.stringify followed by JSON.parse is the identity on such
    values, so the store holds parsed values directly).

JavaScript numbers are modelled as rationals, timestamps in milliseconds
as rationals, and fallible steps as explicit sum types.
-/

/-! ## Color rules (WeatherSidebar: getPolygonColor) -/

/-- One threshold condition of a color rule: a half-open interval
with a display color and a label. -/
structure Condition where
  min : ℚ
  max : ℚ
  color : String
  label : String
deriving Repr, DecidableEq

/-- A color rule: an ordered list of conditions for one data source. -/
structure ColorRule where
  id : String
  dataSource : String
  conditions : List Condition
deriving Repr, DecidableEq

/-- The neutral fallback color literal used by getPolygonColor. -/
def defaultPolygonColor : String := "#gray-400"

/-- The condition test of getPolygonColor: value >= c.min && value < c.max. -/
def condMatches (c : Condition) (v : ℚ) : Bool :=
  decide (c.min ≤ v) && decide (v < c.max)

/-- colorRules.find of the rule whose dataSource equals the selected one. -/
def findRule (rules : List ColorRule) (ds : String) : Option ColorRule :=
  rules.find? (fun r => r.dataSource == ds)

/-- getPolygonColor from the sidebar component: the default color when the
rule or the numeric value is missing, otherwise the color of the first
matching condition (an empty color string is falsy in the source and also
falls back to the default). The numeric value stands for
polygon.weatherData at the selected data source; a missing weatherData
record or a non-numeric entry is the none case. -/
def getPolygonColor (rules : List ColorRule) (ds : String) (value : Option ℚ) : String :=
  match findRule rules ds with
  | none => defaultPolygonColor
  | some rule =>
    match value with
    | none => defaultPolygonColor
    | some v =>
      match rule.conditions.find? (fun c => condMatches c v) with
      | some c => if c.color = "" then defaultPolygonColor else c.color
      | none => defaultPolygonColor

/-- The two-condition rule list of the specification example. -/
def demoRules : List ColorRule :=
  [⟨"demo", "temperature", [⟨0, 10, "blue", "low"⟩, ⟨10, 20, "red", "high"⟩]⟩]

/-- find? returns the element at the first index whose test holds. -/
theorem find_eq_get_of_first {α : Type} (p : α → Bool) (l : List α) (i : Nat)
    (hi : i < l.length) (hm : p (l.get ⟨i, hi⟩) = true)
    (hfirst : ∀ j (hj : j < i), p (l.get ⟨j, Nat.lt_trans hj hi⟩) = false) :
    l.find? p = some (l.get ⟨i, hi⟩) := by
  induction l generalizing i with
  | nil => exact absurd hi (Nat.not_lt_zero i)
  | cons a t ih =>
    cases i with
    | zero => simpa [List.find?_cons, hm] using hm ▸ rfl
    | succ k =>
      have ha : p a = false := hfirst 0 (Nat.succ_pos k)
      have hk : k < t.length := Nat.lt_of_succ_lt_succ hi
      have := ih k hk hm (fun j hj => hfirst (j + 1) (Nat.succ_lt_succ hj))
      simpa [List.find?_cons, ha] using this

/-- C1: color resolution scans a rule's conditions in list order and
returns the color of the first condition whose half-open interval contains
the value; on the example rule list, 10 resolves to the second condition,
9.999 to the first, 25 and a non-numeric value to the default color. -/
theorem c1_color_resolution
    (rules : List ColorRule) (ds : String) (rule : ColorRule) (v : ℚ) (i : Nat)
    (hrule : findRule rules ds = some rule)
    (hi : i < rule.conditions.length)
    (hm : condMatches (rule.conditions.get ⟨i, hi⟩) v = true)
    (hfirst : ∀ j (hj : j < i),
      condMatches (rule.conditions.get ⟨j, Nat.lt_trans hj hi⟩) v = false)
    (hcolor : (rule.conditions.get ⟨i, hi⟩).color ≠ "") :
    getPolygonColor rules ds (some v) = (rule.conditions.get ⟨i, hi⟩).color
    ∧ (∀ rules2 ds2, getPolygonColor rules2 ds2 none = defaultPolygonColor)
    ∧ getPolygonColor demoRules "temperature" (some 10) = "red"
    ∧ getPolygonColor demoRules "temperature" (some (9999 / 1000)) = "blue"
    ∧ getPolygonColor demoRules "temperature" (some 25) = defaultPolygonColor := by
  refine ⟨?_, ?_, ?_, ?_, ?_⟩
  · have hfind := find_eq_get_of_first (fun c => condMatches c v) rule.conditions i hi hm hfirst
    simp only [getPolygonColor, hrule, hfind]
    rw [if_neg hcolor]
  · intro rules2 ds2
    cases h : findRule rules2 ds2 <;> simp [getPolygonColor, h]
  · norm_num [getPolygonColor, findRule, demoRules, condMatches, List.find?]
    exact fun h => absurd h (by decide)
  · norm_num [getPolygonColor, findRule, demoRules, condMatches, List.find?]
    exact fun h => absurd h (by decide)
  · norm_num [getPolygonColor, findRule, demoRules, condMatches, List.find?]

/-- Witness for C1 at the example rule list and value 10: the second
condition is the first match and its color is returned. -/
theorem c1_color_resolution_witness :
    getPolygonColor demoRules "temperature" (some 10) =
      (([⟨0, 10, "blue", "low"⟩, ⟨10, 20, "red", "high"⟩] :
        List Condition).get ⟨1, by norm_num⟩).color := by
  have h := c1_color_resolution demoRules "temperature"
      ⟨"demo", "temperature", [⟨0, 10, "blue", "low"⟩, ⟨10, 20, "red", "high"⟩]⟩ 10 1
      (by norm_num [findRule, demoRules, List.find?])
      (by norm_num)
      (by norm_num [condMatches])
      (by intro j hj
          have : j = 0 := by omega
          subst this
          norm_num [condMatches])
      (by simp)
  exact h.1

/-! ## Weather client (src/lib/weather-api.ts: fetchWeatherData) -/

/-- One hour in milliseconds. -/
def hourMs : ℚ := 3600000

/-- Truncation of a timestamp to its hour: what the source computes by
slicing the ISO string of the instant to its hour. -/
def hourFloor (t : ℚ) : ℚ := (⌊t / hourMs⌋ : ℤ) * hourMs

/-- The parallel hourly arrays of the API body, times already parsed to
milliseconds (the API emits whole-hour timestamps); a reading is none when
the entry is absent or null. -/
structure HourlyData where
  time : List ℚ
  temperature_2m : List (Option ℚ)
  relative_humidity_2m : List (Option ℚ)
  wind_speed_10m : List (Option ℚ)
  precipitation : List (Option ℚ)

/-- The outcome of the network step: a rejected fetch, a non-success
response, or a parsed body whose hourly field may be missing. -/
inductive FetchOutcome where
  | netError : FetchOutcome
  | notOk : FetchOutcome
  | okBody : Option HourlyData → FetchOutcome

/-- The four metrics the client returns. -/
structure WeatherData where
  temperature : ℚ
  humidity : ℚ
  windSpeed : ℚ
  precipitation : ℚ
deriving Repr, DecidableEq

/-- The four Math.random draws of the fallback branch, each in [0, 1). -/
structure MockSeed where
  t : ℚ
  h : ℚ
  w : ℚ
  p : ℚ

/-- Math.random yields values in [0, 1). -/
def validSeed (r : MockSeed) : Prop :=
  0 ≤ r.t ∧ r.t < 1 ∧ 0 ≤ r.h ∧ r.h < 1 ∧ 0 ≤ r.w ∧ r.w < 1 ∧ 0 ≤ r.p ∧ r.p < 1

/-- The mock fallback data of the catch branch. -/
def mockData (r : MockSeed) : WeatherData :=
  ⟨15 + r.t * 20, 40 + r.h * 40, r.w * 30, r.p * 10⟩

/-- The relevant time indices: in single-instant mode the index of the one
entry equal to the truncated hour, in range mode every index whose time
lies in the inclusive interval. -/
def selectedIndices (startTime endTime : ℚ) (time : List ℚ) : List Nat :=
  if startTime = endTime then
    match time.findIdx? (fun t => t == hourFloor startTime) with
    | some i => [i]
    | none => []
  else
    (time.enum.filter
      (fun q => decide (startTime ≤ q.2) && decide (q.2 ≤ endTime))).map Prod.fst

/-- JS (arr[i] || 0): an absent or null reading contributes 0. -/
def readingAt (vals : List (Option ℚ)) (i : Nat) : ℚ :=
  ((vals[i]?).join).getD 0

/-- The reduce of the source: the sum of the readings at the indices. -/
def sumReadings (vals : List (Option ℚ)) (idxs : List Nat) : ℚ :=
  idxs.foldl (fun s i => s + readingAt vals i) 0

/-- Average of the readings over the selected indices. -/
def avgMetric (vals : List (Option ℚ)) (idxs : List Nat) : ℚ :=
  sumReadings vals idxs / idxs.length

/-- Math.round (x * 10) / 10: JS Math.round is the floor of x + 1/2. -/
def round1 (x : ℚ) : ℚ := (⌊x * 10 + 1 / 2⌋ : ℤ) / 10

/-- fetchWeatherData of src/lib/weather-api.ts with the network step made
explicit: every failure path lands in the catch branch and returns the
mock data built from the random seed; otherwise the four metrics are
averaged over the selected indices and rounded to one decimal. -/
def fetchWeatherData (startTime endTime : ℚ) (outcome : FetchOutcome) (r : MockSeed) :
    WeatherData :=
  match outcome with
  | .netError => mockData r
  | .notOk => mockData r
  | .okBody none => mockData r
  | .okBody (some hd) =>
    let idxs := selectedIndices startTime endTime hd.time
    if idxs = [] then mockData r
    else
      { temperature := round1 (avgMetric hd.temperature_2m idxs)
        humidity := round1 (avgMetric hd.relative_humidity_2m idxs)
        windSpeed := round1 (avgMetric hd.wind_speed_10m idxs)
        precipitation := round1 (avgMetric hd.precipitation idxs) }

/-- The failure cases of the client: network error, non-success response,
missing hourly data, or an empty selected index set. -/
def fallbackCase (startTime endTime : ℚ) (outcome : FetchOutcome) : Prop :=
  outcome = .netError ∨ outcome = .notOk ∨ outcome = .okBody none ∨
    ∃ hd, outcome = .okBody (some hd) ∧ selectedIndices startTime endTime hd.time = []

/-- C2: on every failure (network error, non-success response, missing
hourly data, or empty matching index set, which covers single-instant mode
with no entry at the truncated hour) the client returns the synthesized
metrics, whose ranges are [15, 35) degrees, [40, 80) percent, [0, 30)
km/h and [0, 10) mm; no error propagates. -/
theorem c2_fetch_fallback (startTime endTime : ℚ) (outcome : FetchOutcome) (r : MockSeed)
    (hr : validSeed r) (hf : fallbackCase startTime endTime outcome) :
    fetchWeatherData startTime endTime outcome r = mockData r
    ∧ 15 ≤ (mockData r).temperature ∧ (mockData r).temperature < 35
    ∧ 40 ≤ (mockData r).humidity ∧ (mockData r).humidity < 80
    ∧ 0 ≤ (mockData r).windSpeed ∧ (mockData r).windSpeed < 30
    ∧ 0 ≤ (mockData r).precipitation ∧ (mockData r).precipitation < 10 := by
  obtain ⟨ht0, ht1, hh0, hh1, hw0, hw1, hp0, hp1⟩ := hr
  refine ⟨?_, ?_, ?_, ?_, ?_, ?_, ?_, ?_, ?_⟩
  · rcases hf with h | h | h | ⟨hd, h, hempty⟩
    · subst h; rfl
    · subst h; rfl
    · subst h; rfl
    · subst h; simp [fetchWeatherData, hempty]
  all_goals (simp only [mockData]; nlinarith)

/-- Witness for C2: a network error with all four random draws at one
half returns the mock metrics. -/
theorem c2_fetch_fallback_witness :
    fetchWeatherData 0 0 FetchOutcome.netError ⟨1/2, 1/2, 1/2, 1/2⟩ =
      mockData ⟨1/2, 1/2, 1/2, 1/2⟩ :=
  (c2_fetch_fallback 0 0 FetchOutcome.netError ⟨1/2, 1/2, 1/2, 1/2⟩
    (by norm_num [validSeed]) (Or.inl rfl)).1

/-- The foldl of the source's reduce, with any start value, is the start
value plus the sum of the mapped readings. -/
theorem foldl_add_eq_sum {α : Type} (f : α → ℚ) (l : List α) (a : ℚ) :
    l.foldl (fun s i => s + f i) a = a + (l.map f).sum := by
  induction l generalizing a with
  | nil => simp
  | cons x t ih => simp [ih, add_assoc]

/-- sumReadings is the sum of the individual readings. -/
theorem sumReadings_eq_sum (vals : List (Option ℚ)) (idxs : List Nat) :
    sumReadings vals idxs = (idxs.map (readingAt vals)).sum := by
  simpa using foldl_add_eq_sum (readingAt vals) idxs 0

/-- C3: with a non-empty selected index set the client returns, for each
metric, the arithmetic mean over the selected indices of the readings with
absent or null entries replaced by 0, rounded to one decimal place. -/
theorem c3_fetch_averaging (startTime endTime : ℚ) (hd : HourlyData) (r : MockSeed)
    (hne : selectedIndices startTime endTime hd.time ≠ []) :
    (∀ (vals : List (Option ℚ)) i,
      vals[i]? = some none ∨ vals[i]? = none → readingAt vals i = 0)
    ∧ (∀ (vals : List (Option ℚ)) i q,
      vals[i]? = some (some q) → readingAt vals i = q)
    ∧ fetchWeatherData startTime endTime (FetchOutcome.okBody (some hd)) r =
      { temperature := round1
          ((((selectedIndices startTime endTime hd.time).map
              (readingAt hd.temperature_2m)).sum) /
            (selectedIndices startTime endTime hd.time).length)
        humidity := round1
          ((((selectedIndices startTime endTime hd.time).map
              (readingAt hd.relative_humidity_2m)).sum) /
            (selectedIndices startTime endTime hd.time).length)
        windSpeed := round1
          ((((selectedIndices startTime endTime hd.time).map
              (readingAt hd.wind_speed_10m)).sum) /
            (selectedIndices startTime endTime hd.time).length)
        precipitation := round1
          ((((selectedIndices startTime endTime hd.time).map
              (readingAt hd.precipitation)).sum) /
            (selectedIndices startTime endTime hd.time).length) } := by
  refine ⟨?_, ?_, ?_⟩
  · rintro vals i (h | h) <;> simp [readingAt, h]
  · intro vals i q h
    simp [readingAt, h]
  · simp only [fetchWeatherData, if_neg hne, avgMetric, sumReadings_eq_sum]

/-- The hourly series of the witness scenarios: two entries at hours 0 and
1, the second temperature reading missing. -/
def demoHourly : HourlyData :=
  { time := [0, 3600000]
    temperature_2m := [some 10, none]
    relative_humidity_2m := [some 50, some 60]
    wind_speed_10m := [some 5, some 7]
    precipitation := [some 1, some 2]
    }

/-- Witness for C3: over the two selected entries the missing temperature
reading counts as 0, so the mean temperature is (10 + 0) / 2 = 5. -/
theorem c3_fetch_averaging_witness :
    (fetchWeatherData 0 3600000 (FetchOutcome.okBody (some demoHourly))
      ⟨0, 0, 0, 0⟩).temperature = 5 := by
  have h := (c3_fetch_averaging 0 3600000 demoHourly ⟨0, 0, 0, 0⟩
    (by norm_num [selectedIndices, demoHourly, List.enum, List.enumFrom]
        decide)).2.2
  rw [h]
  norm_num [selectedIndices, demoHourly, List.enum, List.enumFrom, readingAt, round1]

/-- C4: in range mode the selected indices are exactly those whose
timestamp lies in the inclusive interval from startTime to endTime. -/
theorem c4_range_selection (startTime endTime : ℚ) (time : List ℚ) (i : Nat)
    (hlt : startTime < endTime) :
    i ∈ selectedIndices startTime endTime time ↔
      ∃ t, time[i]? = some t ∧ startTime ≤ t ∧ t ≤ endTime := by
  have hne : ¬ startTime = endTime := ne_of_lt hlt
  simp only [selectedIndices, if_neg hne, List.mem_map, List.mem_filter]
  constructor
  · rintro ⟨⟨j, t⟩, ⟨hmem, hcond⟩, rfl⟩
    refine ⟨t, ?_, ?_, ?_⟩
    · exact List.mk_mem_enum_iff_getElem?.mp hmem
    · exact of_decide_eq_true (Bool.and_elim_left hcond)
    · exact of_decide_eq_true (Bool.and_elim_right hcond)
  · rintro ⟨t, hget, h1, h2⟩
    exact ⟨(i, t), ⟨List.mk_mem_enum_iff_getElem?.mpr hget,
      by simp [h1, h2]⟩, rfl⟩

/-- Witness for C4: in the two-entry series of the witness scenario both
indices are selected for the range from 0 to one hour, and index 1 is
selected exactly because its timestamp is the inclusive upper endpoint. -/
theorem c4_range_selection_witness :
    1 ∈ selectedIndices 0 3600000 demoHourly.time ↔
      ∃ t, demoHourly.time[1]? = some t ∧ (0:ℚ) ≤ t ∧ t ≤ 3600000 :=
  c4_range_selection 0 3600000 demoHourly.time 1 (by norm_num)

/-! ## Geometry (src/lib/leaflet-utils.ts) -/

/-- Approximate kilometers per degree at the equator, 111.32. -/
def kmPerDegree : ℚ := 11132 / 100

/-- The loop of calculatePolygonArea: over every index the term at i and
its cyclic successor j = (i + 1) mod n is accumulated. -/
def shoelaceRaw (coords : List (ℚ × ℚ)) : ℚ :=
  (List.range coords.length).foldl
    (fun area i =>
      let j := (i + 1) % coords.length
      area + ((coords.getD i (0, 0)).1 * (coords.getD j (0, 0)).2
        - (coords.getD j (0, 0)).1 * (coords.getD i (0, 0)).2))
    0

/-- calculatePolygonArea of src/lib/leaflet-utils.ts: 0 for fewer than 3
points, otherwise the absolute shoelace sum halved and scaled to km2. -/
def calculatePolygonArea (coords : List (ℚ × ℚ)) : ℚ :=
  if coords.length < 3 then 0
  else |shoelaceRaw coords| / 2 * kmPerDegree * kmPerDegree

/-- The shoelace sum exactly as the specification writes it: the sum over
all i of x_i * y_succ(i) - x_succ(i) * y_i with cyclic successor. -/
def shoelaceSpec (coords : List (ℚ × ℚ)) : ℚ :=
  ∑ i in Finset.range coords.length,
    ((coords.getD i (0, 0)).1 * (coords.getD ((i + 1) % coords.length) (0, 0)).2
      - (coords.getD ((i + 1) % coords.length) (0, 0)).1 * (coords.getD i (0, 0)).2)

/-- A mapped sum over List.range equals the Finset.range sum. -/
theorem list_range_map_sum (n : Nat) (f : Nat → ℚ) :
    ((List.range n).map f).sum = ∑ i in Finset.range n, f i := by
  induction n with
  | zero => simp
  | succ k ih =>
    rw [List.range_succ, List.map_append, List.sum_append, Finset.sum_range_succ, ih]
    simp

/-- The area loop computes the specification's shoelace sum. -/
theorem shoelaceRaw_eq_spec (coords : List (ℚ × ℚ)) :
    shoelaceRaw coords = shoelaceSpec coords := by
  rw [shoelaceRaw, shoelaceSpec, foldl_add_eq_sum, list_range_map_sum]
  simp

/-- C5: with at least 3 points the area is the absolute value of half the
shoelace sum scaled by the squared km-per-degree constant, the unit square
evaluates to that constant squared, and fewer than 3 points give 0. -/
theorem c5_polygon_area (coords : List (ℚ × ℚ)) :
    (3 ≤ coords.length →
      calculatePolygonArea coords =
        |shoelaceSpec coords / 2| * (kmPerDegree * kmPerDegree))
    ∧ (coords.length < 3 → calculatePolygonArea coords = 0)
    ∧ calculatePolygonArea [(0, 0), (1, 0), (1, 1), (0, 1)] =
        kmPerDegree * kmPerDegree := by
  refine ⟨?_, ?_, ?_⟩
  · intro h3
    rw [calculatePolygonArea, if_neg (by omega), shoelaceRaw_eq_spec,
      abs_div]
    norm_num
    ring
  · intro hlt
    rw [calculatePolygonArea, if_pos hlt]
  · norm_num [calculatePolygonArea, shoelaceRaw, List.range_succ, kmPerDegree]

/-- Witness for C5: the unit square has 4 points and its area is the
squared scale constant, about 111.32 squared km2. -/
theorem c5_polygon_area_witness :
    calculatePolygonArea [(0, 0), (1, 0), (1, 1), (0, 1)] =
      |shoelaceSpec [((0:ℚ), (0:ℚ)), (1, 0), (1, 1), (0, 1)] / 2| *
        (kmPerDegree * kmPerDegree) :=
  (c5_polygon_area [(0, 0), (1, 0), (1, 1), (0, 1)]).1 (by norm_num)

/-- The per-edge test of isPointInPolygon: the edge straddles the
vertical through lng and the point lies below the edge at that vertical.
When the straddle test fails, the JS conjunction short-circuits and the
division (which JS would evaluate on a zero denominator) is never
reached, so the total rational division here is faithful. -/
def rayCond (lat lng : ℚ) (pi pj : ℚ × ℚ) : Bool :=
  (decide (pi.2 > lng) != decide (pj.2 > lng)) &&
    decide (lat < (pj.1 - pi.1) * (lng - pi.2) / (pj.2 - pi.2) + pi.1)

/-- isPointInPolygon of src/lib/leaflet-utils.ts: the ray-casting loop
with i running over all indices and j the cyclic predecessor (starting at
the last index), toggling the inside flag on every matching edge. -/
def isPointInPolygon (point : ℚ × ℚ) (polygon : List (ℚ × ℚ)) : Bool :=
  (List.range polygon.length).foldl
    (fun inside i =>
      let j := if i = 0 then polygon.length - 1 else i - 1
      if rayCond point.1 point.2 (polygon.getD i (0, 0)) (polygon.getD j (0, 0))
        then !inside else inside)
    false

/-- calculateBounds of src/lib/leaflet-utils.ts: none for an empty list,
otherwise the componentwise minima and maxima. -/
def calculateBounds (coords : List (ℚ × ℚ)) : Option ((ℚ × ℚ) × (ℚ × ℚ)) :=
  match coords with
  | [] => none
  | c :: _ =>
    some ((coords.foldl (fun m p => min m p.1) c.1,
           coords.foldl (fun m p => min m p.2) c.2),
          (coords.foldl (fun m p => max m p.1) c.1,
           coords.foldl (fun m p => max m p.2) c.2))

/-- The centroid used by the dashboard (fetchAllWeatherData): the
arithmetic mean of the vertex coordinates. -/
def polygonCentroid (coords : List (ℚ × ℚ)) : ℚ × ℚ :=
  ((coords.foldl (fun s p => s + p.1) 0) / coords.length,
   (coords.foldl (fun s p => s + p.2) 0) / coords.length)

/-- A left fold of min is at most its start value. -/
theorem foldl_min_le_init (l : List (ℚ × ℚ)) (f : ℚ × ℚ → ℚ) (a : ℚ) :
    l.foldl (fun m p => min m (f p)) a ≤ a := by
  induction l generalizing a with
  | nil => simp
  | cons x t ih => exact le_trans (ih (min a (f x))) (min_le_left a (f x))

/-- A left fold of min is at most each listed value. -/
theorem foldl_min_le_mem (l : List (ℚ × ℚ)) (f : ℚ × ℚ → ℚ) (a : ℚ)
    (p : ℚ × ℚ) (hp : p ∈ l) : l.foldl (fun m q => min m (f q)) a ≤ f p := by
  induction l generalizing a with
  | nil => cases hp
  | cons x t ih =>
    rcases List.mem_cons.mp hp with h | h
    · subst h
      exact le_trans (foldl_min_le_init t f (min a (f p))) (min_le_right a (f p))
    · exact ih (min a (f x)) h

/-- A left fold of max is at least its start value. -/
theorem le_foldl_max_init (l : List (ℚ × ℚ)) (f : ℚ × ℚ → ℚ) (a : ℚ) :
    a ≤ l.foldl (fun m p => max m (f p)) a := by
  induction l generalizing a with
  | nil => simp
  | cons x t ih => exact le_trans (le_max_left a (f x)) (ih (max a (f x)))

/-- A left fold of max is at least each listed value. -/
theorem le_foldl_max_mem (l : List (ℚ × ℚ)) (f : ℚ × ℚ → ℚ) (a : ℚ)
    (p : ℚ × ℚ) (hp : p ∈ l) : f p ≤ l.foldl (fun m q => max m (f q)) a := by
  induction l generalizing a with
  | nil => cases hp
  | cons x t ih =>
    rcases List.mem_cons.mp hp with h | h
    · subst h
      exact le_trans (le_max_right a (f p)) (le_foldl_max_init t f (max a (f p)))
    · exact ih (max a (f x)) h

/-- Every vertex lies inside the computed bounds. -/
theorem mem_bounds (coords : List (ℚ × ℚ)) (bb : (ℚ × ℚ) × (ℚ × ℚ))
    (hbb : calculateBounds coords = some bb) (p : ℚ × ℚ) (hp : p ∈ coords) :
    bb.1.1 ≤ p.1 ∧ p.1 ≤ bb.2.1 ∧ bb.1.2 ≤ p.2 ∧ p.2 ≤ bb.2.2 := by
  match coords, hp with
  | c :: t, hp =>
    simp only [calculateBounds, Option.some_inj] at hbb
    subst hbb
    exact ⟨foldl_min_le_mem _ _ _ p hp, le_foldl_max_mem _ _ _ p hp,
      foldl_min_le_mem _ _ _ p hp, le_foldl_max_mem _ _ _ p hp⟩

/-- The toggling fold of the ray-casting loop computes the parity of the
number of indices whose edge test holds. -/
theorem foldl_toggle_parity (c : Nat → Bool) (l : List Nat) (b : Bool) :
    l.foldl (fun acc i => if c i then !acc else acc) b =
      xor b (decide (Odd (l.countP c))) := by
  induction l generalizing b with
  | nil => simp
  | cons x t ih =>
    rw [List.foldl_cons, ih, List.countP_cons]
    cases hcx : c x
    · simp [hcx]
    · cases b <;> cases hodd : decide (Odd (t.countP c)) <;>
        simp_all [Nat.odd_add_one]

/-- isPointInPolygon is true exactly when an odd number of edges pass the
ray test. -/
theorem isPointInPolygon_eq_parity (point : ℚ × ℚ) (polygon : List (ℚ × ℚ)) :
    isPointInPolygon point polygon =
      decide (Odd ((List.range polygon.length).countP (fun i =>
        rayCond point.1 point.2 (polygon.getD i (0, 0))
          (polygon.getD (if i = 0 then polygon.length - 1 else i - 1) (0, 0))))) := by
  rw [isPointInPolygon]
  rw [foldl_toggle_parity
    (fun i => rayCond point.1 point.2 (polygon.getD i (0, 0))
      (polygon.getD (if i = 0 then polygon.length - 1 else i - 1) (0, 0)))]
  simp

/-- When an edge straddles the vertical through lng, the edge height used
by the ray test lies between the two endpoint latitudes. -/
theorem edge_height_between (lng : ℚ) (pi pj : ℚ × ℚ)
    (hs : (decide (pi.2 > lng) != decide (pj.2 > lng)) = true) :
    min pi.1 pj.1 ≤ (pj.1 - pi.1) * (lng - pi.2) / (pj.2 - pi.2) + pi.1
    ∧ (pj.1 - pi.1) * (lng - pi.2) / (pj.2 - pi.2) + pi.1 ≤ max pi.1 pj.1 := by
  have hiff : ¬ (pi.2 > lng ↔ pj.2 > lng) := by
    intro h
    simp [decide_eq_decide.mpr h] at hs
  set t : ℚ := (lng - pi.2) / (pj.2 - pi.2) with hT
  have hbound : 0 ≤ t ∧ t ≤ 1 := by
    by_cases h1 : pi.2 > lng
    · have h2 : pj.2 ≤ lng := by
        by_contra hcon
        exact hiff ⟨fun _ => lt_of_not_le hcon, fun _ => h1⟩
      have hd : pj.2 - pi.2 < 0 := by linarith
      constructor
      · exact le_of_lt (div_pos_of_neg_of_neg (by linarith) hd)
      · rw [hT, div_le_iff_of_neg hd]
        linarith
    · have h1' : pi.2 ≤ lng := le_of_not_lt h1
      have h2 : pj.2 > lng := by
        by_contra hcon
        exact hiff ⟨fun hc => absurd hc h1, fun hc => absurd hc hcon⟩
      have hd : 0 < pj.2 - pi.2 := by linarith
      constructor
      · exact div_nonneg (by linarith) (le_of_lt hd)
      · rw [hT, div_le_iff₀ hd]
        linarith
  obtain ⟨ht0, ht1⟩ := hbound
  have hexpr : (pj.1 - pi.1) * (lng - pi.2) / (pj.2 - pi.2) + pi.1
      = (pj.1 - pi.1) * t + pi.1 := by
    rw [hT, mul_div_assoc]
  rw [hexpr]
  rcases le_total pi.1 pj.1 with h | h
  · have hge : 0 ≤ (pj.1 - pi.1) * t := mul_nonneg (by linarith) ht0
    have hle : (pj.1 - pi.1) * t ≤ pj.1 - pi.1 :=
      mul_le_of_le_one_right (by linarith) ht1
    constructor
    · calc min pi.1 pj.1 ≤ pi.1 := min_le_left _ _
        _ ≤ (pj.1 - pi.1) * t + pi.1 := by linarith
    · calc (pj.1 - pi.1) * t + pi.1 ≤ pj.1 := by linarith
        _ ≤ max pi.1 pj.1 := le_max_right _ _
  · have hge : (pj.1 - pi.1) * t ≤ 0 :=
      mul_nonpos_of_nonpos_of_nonneg (by linarith) ht0
    have hle : pj.1 - pi.1 ≤ (pj.1 - pi.1) * t := by nlinarith
    constructor
    · calc min pi.1 pj.1 ≤ pj.1 := min_le_right _ _
        _ ≤ (pj.1 - pi.1) * t + pi.1 := by linarith
    · calc (pj.1 - pi.1) * t + pi.1 ≤ pi.1 := by linarith
        _ ≤ max pi.1 pj.1 := le_max_left _ _

/-- countP over List.range as a Finset.range sum of indicators. -/
theorem countP_range_eq_sum (c : Nat → Bool) (n : Nat) :
    (List.range n).countP c = ∑ i in Finset.range n, (if c i then 1 else 0) := by
  induction n with
  | zero => simp
  | succ k ih =>
    rw [List.range_succ, List.countP_append, Finset.sum_range_succ, ih]
    simp [List.countP_cons]

/-- Over the full cyclic index range, the number of edges whose endpoint
flags differ is even: each flag change is counted once from each side of
the cyclic predecessor bijection. -/
theorem straddle_count_even (A : Nat → Bool) (n : Nat) :
    Even ((List.range n).countP
      (fun i => A i != A (if i = 0 then n - 1 else i - 1))) := by
  rw [countP_range_eq_sum]
  have key : ∀ i ∈ Finset.range n,
      (if (A i != A (if i = 0 then n - 1 else i - 1)) then (1:ℕ) else 0)
        + 2 * (if (A i && A (if i = 0 then n - 1 else i - 1)) then 1 else 0)
      = (if A i then 1 else 0)
        + (if A (if i = 0 then n - 1 else i - 1) then 1 else 0) := by
    intro i _
    cases hA : A i <;> cases hB : A (if i = 0 then n - 1 else i - 1) <;>
      simp [hA, hB]
  have hsum := Finset.sum_congr rfl key
  rw [Finset.sum_add_distrib, Finset.sum_add_distrib] at hsum
  have hre : (∑ i in Finset.range n,
        (if A (if i = 0 then n - 1 else i - 1) then (1:ℕ) else 0))
      = ∑ i in Finset.range n, (if A i then 1 else 0) := by
    apply Finset.sum_nbij' (fun i => if i = 0 then n - 1 else i - 1)
      (fun j => if j = n - 1 then 0 else j + 1)
    · intro a ha
      simp only [Finset.mem_range] at ha ⊢
      split <;> omega
    · intro a ha
      simp only [Finset.mem_range] at ha ⊢
      split <;> omega
    · intro a ha
      simp only [Finset.mem_range] at ha
      by_cases h0 : a = 0
      · subst h0
        simp
      · rw [if_neg h0]
        have hne : ¬ (a - 1 = n - 1) := by omega
        rw [if_neg hne]
        omega
    · intro a ha
      simp only [Finset.mem_range] at ha
      by_cases h : a = n - 1
      · subst h
        rw [if_pos rfl, if_pos rfl]
      · rw [if_neg h]
        have : ¬ (a + 1 = 0) := by omega
        rw [if_neg this]
        omega
    · intro a _
      rfl
  rw [hre] at hsum
  have h2 : (∑ i in Finset.range n,
      2 * (if (A i && A (if i = 0 then n - 1 else i - 1)) then (1:ℕ) else 0))
      = 2 * ∑ i in Finset.range n,
        (if (A i && A (if i = 0 then n - 1 else i - 1)) then (1:ℕ) else 0) := by
    rw [Finset.mul_sum]
  rw [h2] at hsum
  rw [Nat.even_iff]
  omega

/-- A getD access with an index in range yields a member of the list. -/
theorem getD_mem_of_lt (l : List (ℚ × ℚ)) (i : Nat) (h : i < l.length) :
    l.getD i (0, 0) ∈ l := by
  rw [List.getD_eq_getElem _ _ h]
  exact List.getElem_mem h

/-- C6 (amended): a point strictly outside the bounding box of the
polygon is never inside by the ray test, whatever the polygon. With the
abscissa strictly outside, no edge straddles the vertical through the
point; below the box every straddling edge passes the height test, and
the number of straddling edges over the cyclic edge list is even; above
the box no edge passes the height test. -/
theorem c6_outside_bbox_false (point : ℚ × ℚ) (polygon : List (ℚ × ℚ))
    (bb : (ℚ × ℚ) × (ℚ × ℚ)) (hbb : calculateBounds polygon = some bb)
    (hout : point.1 < bb.1.1 ∨ bb.2.1 < point.1
      ∨ point.2 < bb.1.2 ∨ bb.2.2 < point.2) :
    isPointInPolygon point polygon = false := by
  rw [isPointInPolygon_eq_parity]
  set n := polygon.length with hn
  set c : Nat → Bool := fun i =>
    rayCond point.1 point.2 (polygon.getD i (0, 0))
      (polygon.getD (if i = 0 then n - 1 else i - 1) (0, 0)) with hc
  set A : Nat → Bool := fun i => decide ((polygon.getD i (0, 0)).2 > point.2)
    with hA
  have hprevlt : ∀ i, i < n → (if i = 0 then n - 1 else i - 1) < n := by
    intro i hi
    split <;> omega
  have hbmem : ∀ i, i < n →
      bb.1.1 ≤ (polygon.getD i (0, 0)).1
      ∧ (polygon.getD i (0, 0)).1 ≤ bb.2.1
      ∧ bb.1.2 ≤ (polygon.getD i (0, 0)).2
      ∧ (polygon.getD i (0, 0)).2 ≤ bb.2.2 := by
    intro i hi
    exact mem_bounds polygon bb hbb _ (getD_mem_of_lt polygon i hi)
  rcases hout with hlat | hlat | hlng | hlng
  · -- point strictly below the box: the test equals the straddle flag
    have hcongr : (List.range n).countP c =
        (List.range n).countP (fun i => A i != A (if i = 0 then n - 1 else i - 1)) := by
      apply List.countP_congr
      intro i hi
      have hilt : i < n := List.mem_range.mp hi
      constructor
      · intro hci
        rw [hc] at hci
        simp only [rayCond, Bool.and_eq_true] at hci
        exact hci.1
      · intro hstr
        rw [hc]
        simp only [rayCond, Bool.and_eq_true]
        refine ⟨hstr, ?_⟩
        have hedge := edge_height_between point.2 (polygon.getD i (0, 0))
          (polygon.getD (if i = 0 then n - 1 else i - 1) (0, 0)) hstr
        have hb1 := (hbmem i hilt).1
        have hb2 := (hbmem _ (hprevlt i hilt)).1
        have hmin : bb.1.1 ≤ min (polygon.getD i (0, 0)).1
            (polygon.getD (if i = 0 then n - 1 else i - 1) (0, 0)).1 :=
          le_min hb1 hb2
        simp only [decide_eq_true_eq]
        linarith [hedge.1]
    rw [hcongr]
    have := straddle_count_even A n
    simp [Nat.not_odd_iff_even.mpr this]
  · -- point strictly above the box: no edge passes the height test
    have hzero : (List.range n).countP c = 0 := by
      apply List.countP_eq_zero.mpr
      intro i hi
      have hilt : i < n := List.mem_range.mp hi
      rw [hc]
      simp only [rayCond, Bool.and_eq_true, decide_eq_true_eq, not_and]
      intro hstr
      have hedge := edge_height_between point.2 (polygon.getD i (0, 0))
        (polygon.getD (if i = 0 then n - 1 else i - 1) (0, 0)) hstr
      have hb1 := (hbmem i hilt).2.1
      have hb2 := (hbmem _ (hprevlt i hilt)).2.1
      have hmax : max (polygon.getD i (0, 0)).1
          (polygon.getD (if i = 0 then n - 1 else i - 1) (0, 0)).1 ≤ bb.2.1 :=
        max_le hb1 hb2
      intro hcon
      linarith [hedge.2]
    rw [hzero]
    simp [Nat.odd_iff]
  · -- abscissa strictly left of the box: every flag is true
    have hzero : (List.range n).countP c = 0 := by
      apply List.countP_eq_zero.mpr
      intro i hi
      have hilt : i < n := List.mem_range.mp hi
      rw [hc]
      simp only [rayCond, Bool.and_eq_true, not_and]
      intro hstr
      have h1 : (polygon.getD i (0, 0)).2 > point.2 := by
        linarith [(hbmem i hilt).2.2.1]
      have h2 : (polygon.getD (if i = 0 then n - 1 else i - 1) (0, 0)).2 > point.2 := by
        linarith [(hbmem _ (hprevlt i hilt)).2.2.1]
      rw [decide_eq_true h1, decide_eq_true h2] at hstr
      exact absurd hstr (by decide)
    rw [hzero]
    simp [Nat.odd_iff]
  · -- abscissa strictly right of the box: every flag is false
    have hzero : (List.range n).countP c = 0 := by
      apply List.countP_eq_zero.mpr
      intro i hi
      have hilt : i < n := List.mem_range.mp hi
      rw [hc]
      simp only [rayCond, Bool.and_eq_true, not_and]
      intro hstr
      have h1 : ¬ ((polygon.getD i (0, 0)).2 > point.2) := by
        linarith [(hbmem i hilt).2.2.2]
      have h2 : ¬ ((polygon.getD (if i = 0 then n - 1 else i - 1) (0, 0)).2 > point.2) := by
        linarith [(hbmem _ (hprevlt i hilt)).2.2.2]
      rw [decide_eq_false h1, decide_eq_false h2] at hstr
      exact absurd hstr (by decide)
    rw [hzero]
    simp [Nat.odd_iff]

/-- Vertex access with cyclic index. -/
def vtx (poly : List (ℚ × ℚ)) (i : Nat) : ℚ × ℚ :=
  poly.getD (i % poly.length) (0, 0)

/-- Twice the signed area of the triangle o a b: the orientation test. -/
def cross2 (o a b : ℚ × ℚ) : ℚ :=
  (a.1 - o.1) * (b.2 - o.2) - (a.2 - o.2) * (b.1 - o.1)

/-- r lies in the bounding box of the segment from p to q. -/
def onSegment (p q r : ℚ × ℚ) : Bool :=
  decide (min p.1 q.1 ≤ r.1) && decide (r.1 ≤ max p.1 q.1) &&
    decide (min p.2 q.2 ≤ r.2) && decide (r.2 ≤ max p.2 q.2)

/-- The standard closed-segment intersection test by orientations: the
segments from p1 to p2 and from p3 to p4 share a point. -/
def segmentsMeet (p1 p2 p3 p4 : ℚ × ℚ) : Bool :=
  let d1 := cross2 p3 p4 p1
  let d2 := cross2 p3 p4 p2
  let d3 := cross2 p1 p2 p3
  let d4 := cross2 p1 p2 p4
  (decide (d1 * d2 < 0) && decide (d3 * d4 < 0)) ||
    (decide (d1 = 0) && onSegment p3 p4 p1) ||
    (decide (d2 = 0) && onSegment p3 p4 p2) ||
    (decide (d3 = 0) && onSegment p1 p2 p3) ||
    (decide (d4 = 0) && onSegment p1 p2 p4)

/-- A non-self-intersecting polygon: at least 3 vertices, no two
non-adjacent edges share a point, and no two consecutive edges are
collinear (so adjacent edges share exactly their common vertex). -/
def SimplePolygon (poly : List (ℚ × ℚ)) : Prop :=
  3 ≤ poly.length
  ∧ (∀ i j, i < poly.length → j < poly.length →
      i ≠ j → (i + 1) % poly.length ≠ j → (j + 1) % poly.length ≠ i →
      segmentsMeet (vtx poly i) (vtx poly (i + 1))
        (vtx poly j) (vtx poly (j + 1)) = false)
  ∧ (∀ i, i < poly.length →
      cross2 (vtx poly i) (vtx poly (i + 1)) (vtx poly (i + 2)) ≠ 0)

/-- A concave L-shaped hexagon: the union of two unit-width arms along
the axes. Plainly non-self-intersecting. -/
def lshape : List (ℚ × ℚ) :=
  [(0, 0), (4, 0), (4, 1), (1, 1), (1, 4), (0, 4)]

/-- The L-shape is a simple polygon in the above sense. -/
theorem lshape_simple : SimplePolygon lshape := by
  refine ⟨by norm_num [lshape], ?_, ?_⟩
  · intro i j hi hj hij hadj1 hadj2
    simp only [lshape, List.length_cons, List.length_nil] at hi hj
    interval_cases i <;> interval_cases j <;>
      first
        | (simp only [lshape, List.length_cons, List.length_nil] at hadj1 hadj2
           omega)
        | norm_num [segmentsMeet, cross2, onSegment, vtx, lshape]
  · intro i hi
    simp only [lshape, List.length_cons, List.length_nil] at hi
    interval_cases i <;> norm_num [cross2, vtx, lshape]

/-- Counterexample to C6 as stated: the L-shape is non-self-intersecting,
yet the ray test at its vertex-mean centroid (5/3, 5/3), which lies in
the concave notch outside the polygon, returns false. -/
theorem c6_centroid_counterexample :
    SimplePolygon lshape
    ∧ isPointInPolygon (polygonCentroid lshape) lshape = false := by
  refine ⟨lshape_simple, ?_⟩
  have hc : polygonCentroid lshape = (5/3, 5/3) := by
    norm_num [polygonCentroid, lshape]
  rw [hc]
  norm_num [isPointInPolygon, lshape, rayCond, List.range_succ]

/-- Witness for C6: the point (10, 10) lies strictly outside the bounding
box ((0, 0), (4, 4)) of the triangle and the ray test returns false. -/
theorem c6_outside_bbox_false_witness :
    isPointInPolygon (10, 10) [(0, 0), (4, 0), (0, 4)] = false :=
  c6_outside_bbox_false (10, 10) [(0, 0), (4, 0), (0, 4)] ((0, 0), (4, 4))
    (by norm_num [calculateBounds])
    (by norm_num)

/-! ## Timeline (WeatherTimeline in the leaflet map module) -/

/-- One day in milliseconds. -/
def dayMs : ℚ := 24 * hourMs

/-- Fifteen days in milliseconds. -/
def fifteenDaysMs : ℚ := 15 * dayMs

/-- The fixed 30-day extent centered on now. -/
def timeExtent (now : ℚ) : ℚ × ℚ := (now - fifteenDaysMs, now + fifteenDaysMs)

/-- A time selection: a single instant or a range of two instants. -/
inductive TimeSel where
  | single : ℚ → TimeSel
  | range : ℚ → ℚ → TimeSel
deriving DecidableEq, Repr

/-- JS Math.round: the floor of x + 1/2. -/
def jsRound (x : ℚ) : ℚ := (⌊x + 1/2⌋ : ℤ)

/-- positionToTime: a slider position in percent mapped into the extent
and rounded to the nearest hour. -/
def positionToTime (now pos : ℚ) : ℚ :=
  jsRound (((timeExtent now).1
    + pos / 100 * ((timeExtent now).2 - (timeExtent now).1)) / hourMs) * hourMs

/-- moveTime on a range selection: shift by delta, clamping the start so
the whole range stays within the extent. -/
def moveTimeRange (now s e delta : ℚ) : TimeSel :=
  let duration := e - s
  let newStart := max (timeExtent now).1
    (min ((timeExtent now).2 - duration) (s + delta))
  TimeSel.range newStart (newStart + duration)

/-- The ArrowUp handler on a range: symmetric expansion by an hour, or a
day with shift, both ends clamped to the extent. -/
def expandRange (now s e : ℚ) (shift : Bool) : TimeSel :=
  let expansion := if shift then dayMs else hourMs
  TimeSel.range (max (timeExtent now).1 (s - expansion))
    (min (timeExtent now).2 (e + expansion))

/-- The ArrowDown handler on a range: symmetric contraction by an hour,
or a day with shift; applied only when the new end stays after the new
start, otherwise the selection is unchanged. -/
def contractRange (s e : ℚ) (shift : Bool) : TimeSel :=
  let contraction := if shift then dayMs else hourMs
  let newStart := s + contraction
  let newEnd := e - contraction
  if newStart < newEnd then TimeSel.range newStart newEnd
  else TimeSel.range s e

/-- Dragging the start handle: the mouse position is clamped to the bar,
snapped to the hour, and capped one hour before the end handle. -/
def dragStartHandle (now s e pos : ℚ) : TimeSel :=
  let position := max 0 (min 100 pos)
  let newTime := positionToTime now position
  TimeSel.range (min newTime (e - hourMs)) e

/-- Dragging the end handle: symmetric to the start handle. -/
def dragEndHandle (now s e pos : ℚ) : TimeSel :=
  let position := max 0 (min 100 pos)
  let newTime := positionToTime now position
  TimeSel.range s (max newTime (s + hourMs))

/-- Clicking the timeline in range mode: recenter the range at the
clicked hour, clamped to the extent. -/
def clickRange (now s e pos : ℚ) : TimeSel :=
  let clickedTime := positionToTime now pos
  let duration := e - s
  let newStart := max (timeExtent now).1
    (min ((timeExtent now).2 - duration) (clickedTime - duration / 2))
  TimeSel.range newStart (newStart + duration)

/-- The invariant start before end. -/
def ordered : TimeSel → Prop
  | TimeSel.single _ => True
  | TimeSel.range s e => s ≤ e

/-- The selection lies within the fixed extent. -/
def withinExtent (now : ℚ) : TimeSel → Prop
  | TimeSel.single t => (timeExtent now).1 ≤ t ∧ t ≤ (timeExtent now).2
  | TimeSel.range s e => (timeExtent now).1 ≤ s ∧ e ≤ (timeExtent now).2

/-- C7: a range contraction that would put the new end at or before the
new start is rejected and leaves the selection unchanged; otherwise the
range becomes start plus delta to end minus delta. -/
theorem c7_contract_rejection (s e : ℚ) (shift : Bool) :
    (e - (if shift then dayMs else hourMs) ≤ s + (if shift then dayMs else hourMs) →
      contractRange s e shift = TimeSel.range s e)
    ∧ (s + (if shift then dayMs else hourMs) < e - (if shift then dayMs else hourMs) →
      contractRange s e shift =
        TimeSel.range (s + (if shift then dayMs else hourMs))
          (e - (if shift then dayMs else hourMs))) := by
  constructor
  · intro h
    rw [contractRange, if_neg (not_lt.mpr h)]
  · intro h
    rw [contractRange, if_pos h]

/-- C8 (amended): every range-mode mutation preserves start before end;
the directional move, the expansion, the contraction and the timeline
click also keep the selection within the fixed extent, but the two handle
drags clamp only against the opposite handle and can leave the extent. -/
theorem c8_range_invariants (now s e delta pos : ℚ) (shift : Bool)
    (hord : s ≤ e)
    (hin1 : (timeExtent now).1 ≤ s) (hin2 : e ≤ (timeExtent now).2) :
    (ordered (moveTimeRange now s e delta)
      ∧ withinExtent now (moveTimeRange now s e delta))
    ∧ (ordered (expandRange now s e shift)
      ∧ withinExtent now (expandRange now s e shift))
    ∧ (ordered (contractRange s e shift)
      ∧ withinExtent now (contractRange s e shift))
    ∧ (ordered (clickRange now s e pos)
      ∧ withinExtent now (clickRange now s e pos))
    ∧ ordered (dragStartHandle now s e pos)
    ∧ ordered (dragEndHandle now s e pos) := by
  have hc : (0:ℚ) < (if shift then dayMs else hourMs) := by
    cases shift <;> norm_num [dayMs, hourMs]
  have hhour : (0:ℚ) < hourMs := by norm_num [hourMs]
  have hext : (timeExtent now).1 ≤ (timeExtent now).2 := by linarith
  refine ⟨⟨?_, ?_⟩, ⟨?_, ?_⟩, ⟨?_, ?_⟩, ⟨?_, ?_⟩, ?_, ?_⟩
  · simp only [moveTimeRange, ordered]
    linarith
  · simp only [moveTimeRange, withinExtent]
    constructor
    · exact le_max_left _ _
    · have h1 : min ((timeExtent now).2 - (e - s)) (s + delta)
          ≤ (timeExtent now).2 - (e - s) := min_le_left _ _
      have h2 : (timeExtent now).1 ≤ (timeExtent now).2 - (e - s) := by linarith
      have := max_le h2 h1
      linarith
  · simp only [expandRange, ordered]
    refine le_min (max_le (by linarith) (by linarith))
      (max_le (by linarith) (by linarith))
  · simp only [expandRange, withinExtent]
    exact ⟨le_max_left _ _, min_le_left _ _⟩
  · by_cases hcond : s + (if shift then dayMs else hourMs)
        < e - (if shift then dayMs else hourMs)
    · simp only [contractRange, if_pos hcond, ordered]
      linarith
    · simp only [contractRange, if_neg hcond, ordered]
      exact hord
  · by_cases hcond : s + (if shift then dayMs else hourMs)
        < e - (if shift then dayMs else hourMs)
    · simp only [contractRange, if_pos hcond, withinExtent]
      constructor <;> linarith
    · simp only [contractRange, if_neg hcond, withinExtent]
      exact ⟨hin1, hin2⟩
  · simp only [clickRange, ordered]
    linarith
  · simp only [clickRange, withinExtent]
    constructor
    · exact le_max_left _ _
    · have h1 : min ((timeExtent now).2 - (e - s))
          (positionToTime now pos - (e - s) / 2)
          ≤ (timeExtent now).2 - (e - s) := min_le_left _ _
      have h2 : (timeExtent now).1 ≤ (timeExtent now).2 - (e - s) := by linarith
      have := max_le h2 h1
      linarith
  · simp only [dragStartHandle, ordered]
    have := min_le_right (positionToTime now (max 0 (min 100 pos))) (e - hourMs)
    linarith
  · simp only [dragEndHandle, ordered]
    have := le_max_right (positionToTime now (max 0 (min 100 pos))) (s + hourMs)
    linarith

/-- Witness for C8 at a degenerate one-instant range in the middle of the
extent. -/
theorem c8_range_invariants_witness :
    ordered (moveTimeRange 0 0 0 hourMs)
    ∧ withinExtent 0 (moveTimeRange 0 0 0 hourMs) :=
  (c8_range_invariants 0 0 0 hourMs 0 false (le_refl 0)
    (by norm_num [timeExtent, fifteenDaysMs, dayMs, hourMs])
    (by norm_num [timeExtent, fifteenDaysMs, dayMs, hourMs])).1

/-- Counterexample to C8 as stated: with now at 15 days the extent is
[0, 30 days]; the range [0, 0] is ordered and within the extent, yet
dragging the start handle to position 0 yields the range [-1 hour, 0],
whose start lies strictly outside the extent: the handle drags do not
clamp to the extent. -/
theorem c8_drag_counterexample :
    ordered (TimeSel.range 0 0)
    ∧ withinExtent fifteenDaysMs (TimeSel.range 0 0)
    ∧ dragStartHandle fifteenDaysMs 0 0 0 = TimeSel.range (-3600000) 0
    ∧ ¬ withinExtent fifteenDaysMs (TimeSel.range (-3600000) 0) := by
  refine ⟨by simp [ordered], ?_, ?_, ?_⟩
  · simp only [withinExtent, timeExtent]
    norm_num [fifteenDaysMs, dayMs, hourMs]
  · simp only [dragStartHandle, positionToTime, timeExtent, jsRound]
    norm_num [fifteenDaysMs, dayMs, hourMs]
  · simp only [withinExtent, timeExtent, not_and]
    norm_num [fifteenDaysMs, dayMs, hourMs]

/-! ## Persistence (src/lib/storage.ts) -/

/-- A parsed JSON value. JSON.stringify followed by JSON.parse is the
identity on such values, so the modelled store holds them directly. -/
inductive JVal where
  | null : JVal
  | bool : Bool → JVal
  | num : ℚ → JVal
  | str : String → JVal
  | arr : List JVal → JVal
  | obj : List (String × JVal) → JVal

/-- JS truthiness of a parsed value (NaN, which is also falsy, has no
rational counterpart). -/
def truthy : JVal → Bool
  | JVal.null => false
  | JVal.bool b => b
  | JVal.num q => decide (q ≠ 0)
  | JVal.str s => decide (s ≠ "")
  | JVal.arr _ => true
  | JVal.obj _ => true

/-- Property access on a parsed value: a field of an object, undefined
on any other non-null value (access on null throws and is handled by the
caller). -/
def getField (j : JVal) (k : String) : Option JVal :=
  match j with
  | JVal.obj l => (l.find? (fun kv => kv.1 == k)).map Prod.snd
  | _ => none

/-- An array test followed by array-or-default, as the source's
Array.isArray conditional. -/
def isArr : JVal → Bool
  | JVal.arr _ => true
  | _ => false

/-- Array.isArray(x) ? x : dflt. -/
def validateArr (o : Option JVal) (dflt : JVal) : JVal :=
  match o with
  | some (JVal.arr l) => JVal.arr l
  | _ => dflt

/-- x || dflt on a possibly absent field. -/
def validateField (o : Option JVal) (dflt : JVal) : JVal :=
  match o with
  | some v => if truthy v then v else dflt
  | none => dflt

/-- The state record getFromStorage returns. Each field holds whatever
parsed value validation produced: the declared TS types are not enforced
at runtime. -/
structure StorageData where
  polygons : JVal
  colorRules : JVal
  selectedDataSource : JVal
  timeSelection : JVal
  mapView : JVal

/-- The hand-authored default color rules of getFromStorage. -/
def defaultColorRules : JVal :=
  JVal.arr
    [JVal.obj [("id", JVal.str "temp-default"),
       ("dataSource", JVal.str "temperature"),
       ("conditions", JVal.arr
         [JVal.obj [("min", JVal.num (-50)), ("max", JVal.num 0),
            ("color", JVal.str "#3b82f6"), ("label", JVal.str "Very Cold")],
          JVal.obj [("min", JVal.num 0), ("max", JVal.num 10),
            ("color", JVal.str "#06b6d4"), ("label", JVal.str "Cold")],
          JVal.obj [("min", JVal.num 10), ("max", JVal.num 20),
            ("color", JVal.str "#10b981"), ("label", JVal.str "Mild")],
          JVal.obj [("min", JVal.num 20), ("max", JVal.num 30),
            ("color", JVal.str "#f59e0b"), ("label", JVal.str "Warm")],
          JVal.obj [("min", JVal.num 30), ("max", JVal.num 50),
            ("color", JVal.str "#ef4444"), ("label", JVal.str "Hot")]])],
     JVal.obj [("id", JVal.str "humidity-default"),
       ("dataSource", JVal.str "humidity"),
       ("conditions", JVal.arr
         [JVal.obj [("min", JVal.num 0), ("max", JVal.num 30),
            ("color", JVal.str "#fbbf24"), ("label", JVal.str "Dry")],
          JVal.obj [("min", JVal.num 30), ("max", JVal.num 60),
            ("color", JVal.str "#10b981"), ("label", JVal.str "Comfortable")],
          JVal.obj [("min", JVal.num 60), ("max", JVal.num 80),
            ("color", JVal.str "#3b82f6"), ("label", JVal.str "Humid")],
          JVal.obj [("min", JVal.num 80), ("max", JVal.num 100),
            ("color", JVal.str "#1e40af"), ("label", JVal.str "Very Humid")]])],
     JVal.obj [("id", JVal.str "wind-default"),
       ("dataSource", JVal.str "windSpeed"),
       ("conditions", JVal.arr
         [JVal.obj [("min", JVal.num 0), ("max", JVal.num 10),
            ("color", JVal.str "#10b981"), ("label", JVal.str "Calm")],
          JVal.obj [("min", JVal.num 10), ("max", JVal.num 20),
            ("color", JVal.str "#f59e0b"), ("label", JVal.str "Breezy")],
          JVal.obj [("min", JVal.num 20), ("max", JVal.num 40),
            ("color", JVal.str "#ef4444"), ("label", JVal.str "Windy")],
          JVal.obj [("min", JVal.num 40), ("max", JVal.num 100),
            ("color", JVal.str "#7c2d12"), ("label", JVal.str "Very Windy")]])],
     JVal.obj [("id", JVal.str "precip-default"),
       ("dataSource", JVal.str "precipitation"),
       ("conditions", JVal.arr
         [JVal.obj [("min", JVal.num 0), ("max", JVal.num 1),
            ("color", JVal.str "#e5e7eb"), ("label", JVal.str "None")],
          JVal.obj [("min", JVal.num 1), ("max", JVal.num 5),
            ("color", JVal.str "#3b82f6"), ("label", JVal.str "Light")],
          JVal.obj [("min", JVal.num 5), ("max", JVal.num 15),
            ("color", JVal.str "#1d4ed8"), ("label", JVal.str "Moderate")],
          JVal.obj [("min", JVal.num 15), ("max", JVal.num 50),
            ("color", JVal.str "#1e3a8a"), ("label", JVal.str "Heavy")]])]]

/-- The default single-instant time selection at the current time. -/
def defaultTimeSelection (now : ℚ) : JVal :=
  JVal.obj [("mode", JVal.str "single"), ("single", JVal.num now)]

/-- The default map view over New York City. -/
def defaultMapView : JVal :=
  JVal.obj [("center", JVal.arr [JVal.num (407128 / 10000),
    JVal.num (-740060 / 10000)]), ("zoom", JVal.num 10)]

/-- The complete default state of getFromStorage. -/
def defaultState (now : ℚ) : StorageData :=
  { polygons := JVal.arr []
    colorRules := defaultColorRules
    selectedDataSource := JVal.str "temperature"
    timeSelection := defaultTimeSelection now
    mapView := defaultMapView }

/-- The persisted blob under the fixed key: absent, unparseable JSON, or
a parsed value. -/
inductive Stored where
  | missing : Stored
  | malformed : Stored
  | val : JVal → Stored

/-- The per-field validation of getFromStorage on a parsed value. -/
def parseFields (now : ℚ) (j : JVal) : StorageData :=
  { polygons := validateArr (getField j "polygons") (JVal.arr [])
    colorRules := validateArr (getField j "colorRules") defaultColorRules
    selectedDataSource :=
      validateField (getField j "selectedDataSource") (JVal.str "temperature")
    timeSelection :=
      validateField (getField j "timeSelection") (defaultTimeSelection now)
    mapView := validateField (getField j "mapView") defaultMapView }

/-- getFromStorage of src/lib/storage.ts: the default state when nothing
is stored, the blob does not parse, or the parsed value is null (whose
field access throws into the catch); otherwise per-field validation with
default substitution. -/
def getFromStorage (now : ℚ) (st : Stored) : StorageData :=
  match st with
  | Stored.missing => defaultState now
  | Stored.malformed => defaultState now
  | Stored.val JVal.null => defaultState now
  | Stored.val j => parseFields now j

/-- A partial update: the fields present in the object literal passed to
saveToStorage. -/
structure PartialStorage where
  polygons : Option JVal
  colorRules : Option JVal
  selectedDataSource : Option JVal
  timeSelection : Option JVal
  mapView : Option JVal

/-- The spread merge of saveToStorage: fields of the update override the
existing state. -/
def mergeStorage (existing : StorageData) (p : PartialStorage) : StorageData :=
  { polygons := p.polygons.getD existing.polygons
    colorRules := p.colorRules.getD existing.colorRules
    selectedDataSource := p.selectedDataSource.getD existing.selectedDataSource
    timeSelection := p.timeSelection.getD existing.timeSelection
    mapView := p.mapView.getD existing.mapView }

/-- The five-key object JSON.stringify serializes. -/
def toJVal (d : StorageData) : JVal :=
  JVal.obj [("polygons", d.polygons), ("colorRules", d.colorRules),
    ("selectedDataSource", d.selectedDataSource),
    ("timeSelection", d.timeSelection), ("mapView", d.mapView)]

/-- saveToStorage of src/lib/storage.ts: load and validate the existing
state, merge the update over it, store the serialized union. -/
def saveToStorage (now : ℚ) (st : Stored) (p : PartialStorage) : Stored :=
  Stored.val (toJVal (mergeStorage (getFromStorage now st) p))

/-- Array-or-default validation always yields an array when the default
is one. -/
theorem validateArr_isArr (o : Option JVal) (dflt : JVal)
    (hd : isArr dflt = true) : isArr (validateArr o dflt) = true := by
  rcases o with _ | v
  · simpa [validateArr] using hd
  · cases v <;> simp [validateArr, isArr] <;> simpa [isArr] using hd

/-- Truthy-or-default validation always yields a truthy value when the
default is truthy. -/
theorem validateField_truthy (o : Option JVal) (dflt : JVal)
    (hd : truthy dflt = true) : truthy (validateField o dflt) = true := by
  rcases o with _ | v
  · simpa [validateField] using hd
  · simp only [validateField]
    by_cases h : truthy v = true
    · simp [h]
    · simpa [h] using hd

/-- Loaded polygons are always an array. -/
theorem getFromStorage_polygons_isArr (now : ℚ) (st : Stored) :
    isArr (getFromStorage now st).polygons = true := by
  cases st with
  | missing => rfl
  | malformed => rfl
  | val j =>
    cases j <;>
      first
        | rfl
        | exact validateArr_isArr _ _ rfl

/-- Loaded color rules are always an array. -/
theorem getFromStorage_colorRules_isArr (now : ℚ) (st : Stored) :
    isArr (getFromStorage now st).colorRules = true := by
  cases st with
  | missing => rfl
  | malformed => rfl
  | val j =>
    cases j <;>
      first
        | rfl
        | exact validateArr_isArr _ _ rfl

/-- The loaded data source is always truthy. -/
theorem getFromStorage_sds_truthy (now : ℚ) (st : Stored) :
    truthy (getFromStorage now st).selectedDataSource = true := by
  have hd : truthy (JVal.str "temperature") = true := by decide
  cases st with
  | missing => exact hd
  | malformed => exact hd
  | val j =>
    cases j <;>
      first
        | exact hd
        | exact validateField_truthy _ _ hd

/-- The loaded time selection is always truthy. -/
theorem getFromStorage_time_truthy (now : ℚ) (st : Stored) :
    truthy (getFromStorage now st).timeSelection = true := by
  cases st with
  | missing => rfl
  | malformed => rfl
  | val j =>
    cases j <;>
      first
        | rfl
        | exact validateField_truthy _ _ rfl

/-- The loaded map view is always truthy. -/
theorem getFromStorage_mapView_truthy (now : ℚ) (st : Stored) :
    truthy (getFromStorage now st).mapView = true := by
  cases st with
  | missing => rfl
  | malformed => rfl
  | val j =>
    cases j <;>
      first
        | rfl
        | exact validateField_truthy _ _ rfl

/-- An array-valued JVal is an arr node. -/
theorem isArr_exists (v : JVal) (h : isArr v = true) : ∃ l, v = JVal.arr l := by
  cases v <;> simp [isArr] at h
  exact ⟨_, rfl⟩

/-- C9: saving a state whose fields are valid (arrays where arrays are
expected, truthy elsewhere) and loading reproduces every field; a field
omitted from a partial save keeps the previously persisted value. -/
theorem c9_storage_roundtrip (now now2 : ℚ) (st : Stored) (state : StorageData)
    (p : PartialStorage)
    (hpoly : isArr state.polygons = true)
    (hrules : isArr state.colorRules = true)
    (hsds : truthy state.selectedDataSource = true)
    (htime : truthy state.timeSelection = true)
    (hmap : truthy state.mapView = true) :
    getFromStorage now2 (saveToStorage now st
      ⟨some state.polygons, some state.colorRules, some state.selectedDataSource,
        some state.timeSelection, some state.mapView⟩) = state
    ∧ (p.polygons = none →
        (getFromStorage now2 (saveToStorage now st p)).polygons
          = (getFromStorage now st).polygons)
    ∧ (p.colorRules = none →
        (getFromStorage now2 (saveToStorage now st p)).colorRules
          = (getFromStorage now st).colorRules)
    ∧ (p.selectedDataSource = none →
        (getFromStorage now2 (saveToStorage now st p)).selectedDataSource
          = (getFromStorage now st).selectedDataSource)
    ∧ (p.timeSelection = none →
        (getFromStorage now2 (saveToStorage now st p)).timeSelection
          = (getFromStorage now st).timeSelection)
    ∧ (p.mapView = none →
        (getFromStorage now2 (saveToStorage now st p)).mapView
          = (getFromStorage now st).mapView) := by
  refine ⟨?_, ?_, ?_, ?_, ?_, ?_⟩
  · have hmerge : mergeStorage (getFromStorage now st)
        ⟨some state.polygons, some state.colorRules, some state.selectedDataSource,
          some state.timeSelection, some state.mapView⟩ = state := by
      cases state
      rfl
    rw [saveToStorage, hmerge]
    obtain ⟨lp, hlp⟩ := isArr_exists state.polygons hpoly
    obtain ⟨lc, hlc⟩ := isArr_exists state.colorRules hrules
    cases state with
    | mk pg cr sd ts mv =>
      simp only at hlp hlc hsds htime hmap
      subst hlp hlc
      simp [getFromStorage, parseFields, toJVal, getField, List.find?,
        validateArr, validateField, hsds, htime, hmap]
  · intro hp
    have h1 : (getFromStorage now2 (saveToStorage now st p)).polygons
        = validateArr (some (mergeStorage (getFromStorage now st) p).polygons)
          (JVal.arr []) := rfl
    have h2 : (mergeStorage (getFromStorage now st) p).polygons
        = (getFromStorage now st).polygons := by
      simp [mergeStorage, hp]
    rw [h1, h2]
    obtain ⟨l, hl⟩ := isArr_exists _ (getFromStorage_polygons_isArr now st)
    rw [hl]
    rfl
  · intro hp
    have h1 : (getFromStorage now2 (saveToStorage now st p)).colorRules
        = validateArr (some (mergeStorage (getFromStorage now st) p).colorRules)
          defaultColorRules := rfl
    have h2 : (mergeStorage (getFromStorage now st) p).colorRules
        = (getFromStorage now st).colorRules := by
      simp [mergeStorage, hp]
    rw [h1, h2]
    obtain ⟨l, hl⟩ := isArr_exists _ (getFromStorage_colorRules_isArr now st)
    rw [hl]
    rfl
  · intro hp
    have h1 : (getFromStorage now2 (saveToStorage now st p)).selectedDataSource
        = validateField
          (some (mergeStorage (getFromStorage now st) p).selectedDataSource)
          (JVal.str "temperature") := rfl
    have h2 : (mergeStorage (getFromStorage now st) p).selectedDataSource
        = (getFromStorage now st).selectedDataSource := by
      simp [mergeStorage, hp]
    rw [h1, h2]
    simp [validateField, getFromStorage_sds_truthy now st]
  · intro hp
    have h1 : (getFromStorage now2 (saveToStorage now st p)).timeSelection
        = validateField
          (some (mergeStorage (getFromStorage now st) p).timeSelection)
          (defaultTimeSelection now2) := rfl
    have h2 : (mergeStorage (getFromStorage now st) p).timeSelection
        = (getFromStorage now st).timeSelection := by
      simp [mergeStorage, hp]
    rw [h1, h2]
    simp [validateField, getFromStorage_time_truthy now st]
  · intro hp
    have h1 : (getFromStorage now2 (saveToStorage now st p)).mapView
        = validateField
          (some (mergeStorage (getFromStorage now st) p).mapView)
          defaultMapView := rfl
    have h2 : (mergeStorage (getFromStorage now st) p).mapView
        = (getFromStorage now st).mapView := by
      simp [mergeStorage, hp]
    rw [h1, h2]
    simp [validateField, getFromStorage_mapView_truthy now st]

/-- Witness for C9: saving the default state over an empty store and
loading it back returns it unchanged. -/
theorem c9_storage_roundtrip_witness :
    getFromStorage 0 (saveToStorage 0 Stored.missing
      ⟨some (defaultState 0).polygons, some (defaultState 0).colorRules,
        some (defaultState 0).selectedDataSource,
        some (defaultState 0).timeSelection,
        some (defaultState 0).mapView⟩) = defaultState 0 :=
  (c9_storage_roundtrip 0 0 Stored.missing (defaultState 0)
    ⟨none, none, none, none, none⟩ rfl rfl (by decide) rfl rfl).1

/-- On a parsed non-null blob the load is the per-field validation. -/
theorem getFromStorage_val_ne_null (now : ℚ) (j : JVal) (h : j ≠ JVal.null) :
    getFromStorage now (Stored.val j) = parseFields now j := by
  cases j <;> first | exact absurd rfl h | rfl

/-- An array-or-default field keeps a stored array unchanged. -/
theorem validateArr_keeps (l : List JVal) (dflt : JVal) :
    validateArr (some (JVal.arr l)) dflt = JVal.arr l := rfl

/-- An array-or-default field substitutes the default whenever the
stored field is absent or not an array. -/
theorem validateArr_default (o : Option JVal) (dflt : JVal)
    (h : ∀ l, o ≠ some (JVal.arr l)) : validateArr o dflt = dflt := by
  rcases o with _ | v
  · rfl
  · cases v <;> first | rfl | exact absurd rfl (h _)

/-- A truthy-or-default field keeps a truthy stored value unchanged. -/
theorem validateField_keeps (v dflt : JVal) (h : truthy v = true) :
    validateField (some v) dflt = v := by
  simp [validateField, h]

/-- A truthy-or-default field substitutes the default whenever the
stored field is absent or falsy. -/
theorem validateField_default (o : Option JVal) (dflt : JVal)
    (h : ∀ v, o = some v → truthy v = false) : validateField o dflt = dflt := by
  rcases o with _ | v
  · rfl
  · simp [validateField, h v rfl]

/-- C10 (amended): whatever the persisted blob holds, the loaded record
has arrays in polygons and colorRules, a truthy selectedDataSource, and
a missing, unparseable or null blob yields the hand-authored default
state in full; on any other parsed blob, polygons and colorRules keep a
stored array and fall back to the hand-authored defaults when the stored
field is absent or not an array, and selectedDataSource keeps the stored
value of whatever type when it is truthy and is the default non-empty
string when the field is absent or falsy. -/
theorem c10_load_validation (now : ℚ) (st : Stored) (j : JVal) :
    (∃ l, (getFromStorage now st).polygons = JVal.arr l)
    ∧ (∃ l, (getFromStorage now st).colorRules = JVal.arr l)
    ∧ truthy (getFromStorage now st).selectedDataSource = true
    ∧ getFromStorage now Stored.missing = defaultState now
    ∧ getFromStorage now Stored.malformed = defaultState now
    ∧ getFromStorage now (Stored.val JVal.null) = defaultState now
    ∧ (j ≠ JVal.null →
        (∀ l, getField j "polygons" = some (JVal.arr l) →
          (getFromStorage now (Stored.val j)).polygons = JVal.arr l)
        ∧ ((∀ l, getField j "polygons" ≠ some (JVal.arr l)) →
          (getFromStorage now (Stored.val j)).polygons
            = (defaultState now).polygons)
        ∧ (∀ l, getField j "colorRules" = some (JVal.arr l) →
          (getFromStorage now (Stored.val j)).colorRules = JVal.arr l)
        ∧ ((∀ l, getField j "colorRules" ≠ some (JVal.arr l)) →
          (getFromStorage now (Stored.val j)).colorRules = defaultColorRules)
        ∧ (∀ v, getField j "selectedDataSource" = some v → truthy v = true →
          (getFromStorage now (Stored.val j)).selectedDataSource = v)
        ∧ ((∀ v, getField j "selectedDataSource" = some v → truthy v = false) →
          (getFromStorage now (Stored.val j)).selectedDataSource
            = JVal.str "temperature")) := by
  refine ⟨isArr_exists _ (getFromStorage_polygons_isArr now st),
    isArr_exists _ (getFromStorage_colorRules_isArr now st),
    getFromStorage_sds_truthy now st, rfl, rfl, rfl, ?_⟩
  intro hnull
  rw [getFromStorage_val_ne_null now j hnull]
  refine ⟨?_, ?_, ?_, ?_, ?_, ?_⟩
  · intro l hl
    show validateArr (getField j "polygons") (JVal.arr []) = JVal.arr l
    rw [hl]
    exact validateArr_keeps l _
  · intro h
    exact validateArr_default _ _ h
  · intro l hl
    show validateArr (getField j "colorRules") defaultColorRules = JVal.arr l
    rw [hl]
    exact validateArr_keeps l _
  · intro h
    exact validateArr_default _ _ h
  · intro v hv htr
    show validateField (getField j "selectedDataSource")
      (JVal.str "temperature") = v
    rw [hv]
    exact validateField_keeps v _ htr
  · intro h
    exact validateField_default _ _ h

/-- Counterexample to C10 as stated: a stored blob whose
selectedDataSource is the number 42 loads as that number, which is no
string at all: the truthiness check keeps any truthy value. -/
theorem c10_sds_counterexample :
    (getFromStorage 0 (Stored.val
      (JVal.obj [("selectedDataSource", JVal.num 42)]))).selectedDataSource
      = JVal.num 42
    ∧ ∀ s : String, JVal.num 42 ≠ JVal.str s := by
  constructor
  · norm_num [getFromStorage, parseFields, getField, validateField, truthy,
      List.find?]
  · intro s h
    exact JVal.noConfusion h
